import Mathlib

/-
  Verification of the agent orchestration pipeline of `dexter_vietnam`
  (src/agent/orchestrator.py, src/model/llm.py).

  The Python code is shallowly embedded: dynamic dicts that flow between
  the Planner, Executor and Synthesizer are modelled by a JSON-like value
  type `PVal` and by structures whose fields are `Option`-typed exactly
  where the code reads them with `dict.get(key, default)`.  Machine
  integers do not occur (only small Python ints, modelled by `Int`/`Nat`);
  strings are modelled by `String` (Python `str` and Lean `String` are
  both sequences of unicode code points).  Python functions from
  the source are given Lean definitions of the same name.
-/

namespace DexterVN

/-- JSON-like values: the payloads carried in plan-step `params`, tool
results and step-result dicts (`Any` in the Python signatures). -/
inductive PVal where
  | s (v : String)
  | i (v : Int)
  | b (v : Bool)
  | null
  | arr (vs : List PVal)
  | dict (kvs : List (String × PVal))
deriving Repr

/-- Key lookup in a dict value: Python `d.get(k)` restricted to `PVal.dict`
(first binding wins, as in a Python dict built left to right). -/
def pget (v : PVal) (k : String) : Option PVal :=
  match v with
  | .dict kvs => (kvs.find? (fun kv => kv.fst == k)).map (fun kv => kv.snd)
  | _ => none

/-- Python `pat in s` (substring containment over code points). -/
def strContains (s pat : String) : Bool :=
  (List.range (s.data.length + 1)).any
    (fun i => pat.data.isPrefixOf (s.data.drop i))

/-- Models `any(k in s for k in pats)` — the keyword tests of the fallback planner. -/
def containsAny (s : String) (pats : List String) : Bool :=
  pats.any (fun p => strContains s p)

/-- Python `str.lower()` restricted to ASCII letters.  The queries the
source lowercases mix ASCII (ticker codes, English keywords) with
Vietnamese letters that are already lowercase in every branch keyword, so
the ASCII mapping coincides with Python on all inputs considered here. -/
def pyLowerChar (c : Char) : Char :=
  if 65 ≤ c.toNat && c.toNat ≤ 90 then Char.ofNat (c.toNat + 32) else c

/-- Python `str.lower()` on a whole string (see `pyLowerChar`). -/
def pyLower (s : String) : String := String.mk (s.data.map pyLowerChar)

/-- Python `s[:n]`: the first `n` code points of a string. -/
def pyTake (s : String) (n : Nat) : String := String.mk (s.data.take n)

/-- Python `s[-k:]`: the last `k` elements for `k > 0`, and — the notorious
`-0` case — the *whole* list for `k = 0`, since `s[-0:]` is `s[0:]`. -/
def pySliceLast {α : Type} (l : List α) (k : Nat) : List α :=
  if k = 0 then l else l.drop (l.length - k)

end DexterVN

namespace DexterVN

/-! ## ConversationMemory (src/agent/orchestrator.py lines 109-141) -/

/-- One entry of `ConversationMemory.history`: the dict appended by
`add_turn` (role, content, timestamp). -/
structure Turn where
  role : String
  content : String
  timestamp : String
deriving Repr, DecidableEq

/-- Models `ConversationMemory`: `max_turns` and the mutable `history` list. -/
structure Memory where
  max_turns : Nat
  history : List Turn
deriving Repr, DecidableEq

/-- Models `ConversationMemory.add_turn`: append the turn, then trim to the last
`max_turns * 2` entries when the length exceeds that bound.  The
`datetime.now().isoformat()` timestamp is passed in explicitly. -/
def add_turn (m : Memory) (role content timestamp : String) : Memory :=
  let h := m.history ++ [⟨role, content, timestamp⟩]
  ⟨m.max_turns,
    if h.length > m.max_turns * 2 then pySliceLast h (m.max_turns * 2) else h⟩

/-- Models `ConversationMemory.get_context`: render the last `last_n` exchanges
(`history[-last_n * 2:]`), each content truncated to 500 characters;
empty string when the selected slice is empty. -/
def get_context (m : Memory) (last_n : Nat) : String :=
  let recent := pySliceLast m.history (last_n * 2)
  if recent.isEmpty then ""
  else
    String.intercalate "\n"
      (recent.map (fun t =>
        (if t.role == "user" then "User" else "Dexter") ++ ": " ++ pyTake t.content 500))

/-- Models `ConversationMemory.clear`. -/
def clear (m : Memory) : Memory := ⟨m.max_turns, []⟩

end DexterVN

namespace DexterVN

/-! ## Plan and Step dicts

A plan step is the JSON dict `{"step", "tool", "action", "params",
"reason", "parallel_group"}`.  Every field the code reads with
`step.get(key)` or `step.get(key, default)` is `Option`-typed here; the
defaults are applied at the read sites exactly as in the source. -/

/-- One plan step (dict). -/
structure Step where
  step : Option Int
  tool : Option String
  action : Option String
  params : Option (List (String × PVal))
  reason : Option String
  parallel_group : Option Int
deriving Repr

/-- A plan (dict): `{"intent", "symbols", "steps"}`. -/
structure Plan where
  intent : Option String
  symbols : Option (List String)
  steps : Option (List Step)
deriving Repr

/-- Reads `step.get("parallel_group", 1)` (src line 470). -/
def groupD (st : Step) : Int := st.parallel_group.getD 1

/-- Reads `plan.get("steps", [])` (src line 463). -/
def stepsD (p : Plan) : List Step := p.steps.getD []

end DexterVN

namespace DexterVN

/-! ## Planner (src/agent/orchestrator.py lines 147-440) -/

/-- Python word characters for `re`'s `\b` in unicode mode: ASCII
alphanumerics, underscore, and (approximating the full unicode table by
what occurs in Vietnamese queries) every non-ASCII character, which
covers the accented letters; ASCII punctuation and whitespace are
non-word characters in both readings. -/
def isWordChar (c : Char) : Bool :=
  c.isAlphanum || c == '_' || decide (128 ≤ c.toNat)

/-- The maximal runs of word characters of a string.  A match of the
pattern `\b([A-Z]{3})\b` is exactly such a run that is three uppercase
ASCII letters long, so `re.findall` of that pattern is a filter of
these runs. -/
def wordRuns (s : String) : List String :=
  ((s.data.splitOnP (fun c => !isWordChar c)).map String.mk).filter (fun w => w ≠ "")

/-- Models `re.findall(r'\b([A-Z]{3})\b', query)` (src line 198). -/
def findSymbols (query : String) : List String :=
  (wordRuns query).filter
    (fun w => w.length == 3 && w.data.all (fun c => 65 ≤ c.toNat && c.toNat ≤ 90))

/-- The stoplist of src line 200. -/
def stop_words : List String := ["VND", "USD", "GDP", "CPI", "ETF", "IPO", "CEO", "CFO"]

/-- Models `[s for s in found_symbols if s not in stop_words]` (src line 201). -/
def extractSymbols (query : String) : List String :=
  (findSymbols query).filter (fun s => !stop_words.contains s)

/-- Helper for the literal step dicts of `_fallback_plan`: every one of
them carries all six keys and `parallel_group: 1`. -/
def fstep (n : Int) (tool action : String) (params : List (String × PVal))
    (reason : String) : Step :=
  ⟨some n, some tool, some action, some params, some reason, some 1⟩

/-- Python `str.strip()` (whitespace at both ends). -/
def pyStrip (s : String) : String :=
  String.mk ((s.data.dropWhile Char.isWhitespace).reverse.dropWhile Char.isWhitespace).reverse

/-- Python `str.strip("?")`. -/
def pyStripQ (s : String) : String :=
  String.mk ((s.data.dropWhile (· == '?')).reverse.dropWhile (· == '?')).reverse

/-- One replacement pass for `pyReplace`, with fuel (the fuel starts at
the string length and each step consumes at least one character, so it
never runs out for the non-empty patterns the source uses). -/
def pyReplaceAux (old new : List Char) : Nat → List Char → List Char
  | 0, l => l
  | _ + 1, [] => []
  | fuel + 1, c :: rest =>
      if old ≠ [] && old.isPrefixOf (c :: rest) then
        new ++ pyReplaceAux old new fuel ((c :: rest).drop old.length)
      else
        c :: pyReplaceAux old new fuel rest

/-- Python `s.replace(old, new)` (all non-overlapping occurrences, left
to right) for a non-empty `old`. -/
def pyReplace (s old new : String) : String :=
  String.mk (pyReplaceAux old.data new.data s.data.length s.data)

/-- The term extraction of the education `define` branch (src lines
367-370): `term = query.strip()` then for each listed phrase
`term = term.lower().replace(prefix, "").strip().strip("?")`. -/
def defineTerm (query : String) : String :=
  ["là gì", "nghĩa là gì", "giải thích", "thuật ngữ"].foldl
    (fun term p => pyStripQ (pyStrip (pyReplace (pyLower term) p ""))) (pyStrip query)

/-- Builds `params` as the source writes `symbol`-keyed params: the dict when the symbol is non-empty, else empty (used by several branches). -/
def symParams (symbol : String) : List (String × PVal) :=
  if symbol ≠ "" then [("symbol", PVal.s symbol)] else []

/-- The keyword→tool `elif` cascade of `Planner._fallback_plan`
(src lines 207-421): the value of `steps` after the chain, before the
final `if not steps` default.  `ql` is `query.lower()`. -/
def fallbackSteps (ql query symbol : String) : List Step :=
  if containsAny ql ["phân tích", "đánh giá", "review", "analyze"] then
    if symbol ≠ "" then
      [fstep 1 "financial_ratios" "all" [("symbol", .s symbol)] "Chỉ số tài chính",
       fstep 2 "technical_indicators" "summary" [("symbol", .s symbol)] "Chỉ báo kỹ thuật",
       fstep 3 "trading_signals" "recommendation" [("symbol", .s symbol)] "Tín hiệu giao dịch",
       fstep 4 "company_risk" "assessment" [("symbol", .s symbol)] "Đánh giá rủi ro"]
    else
      [fstep 1 "market_overview" "summary" [] "Tổng quan thị trường"]
  else if containsAny ql ["khối ngoại", "foreign"] then
    if strContains ql "mua" then
      [fstep 1 "money_flow" "top_foreign_buy" [] "Top mua ròng khối ngoại"]
    else if strContains ql "bán" then
      [fstep 1 "money_flow" "top_foreign_sell" [] "Top bán ròng khối ngoại"]
    else
      [fstep 1 "money_flow" "top_foreign_buy" [] "Top mua ròng",
       fstep 2 "money_flow" "top_foreign_sell" [] "Top bán ròng"]
  else if containsAny ql ["tin tức", "news", "tin"] then
    [fstep 1 "news_aggregator" (if symbol ≠ "" then "stock_news" else "market")
      (symParams symbol) "Lấy tin tức"]
  else if containsAny ql ["lọc", "sàng lọc", "screen", "tìm"] then
    let action :=
      if strContains ql "tăng trưởng" || strContains ql "growth" then "growth"
      else if strContains ql "oversold" || strContains ql "quá bán" then "oversold"
      else "value"
    [fstep 1 "stock_screener" action [] "Sàng lọc cổ phiếu"]
  else if containsAny ql ["thị trường", "market", "vnindex"] then
    [fstep 1 "market_overview" "summary" [] "Tổng quan thị trường"]
  else if containsAny ql ["định giá", "dcf", "valuation"] then
    if symbol ≠ "" then
      [fstep 1 "dcf_valuation" "valuation" [("symbol", .s symbol)] "Định giá DCF"]
    else []
  else if containsAny ql ["rsi", "macd", "bollinger", "kỹ thuật", "technical"] then
    if symbol ≠ "" then
      [fstep 1 "technical_indicators" "all" [("symbol", .s symbol)] "Chỉ báo kỹ thuật"]
    else []
  else if containsAny ql ["rủi ro", "risk"] then
    if symbol ≠ "" then
      [fstep 1 "company_risk" "assessment" [("symbol", .s symbol)] "Đánh giá rủi ro"]
    else []
  else if containsAny ql ["dòng tiền", "money flow"] then
    if symbol ≠ "" then
      [fstep 1 "money_flow" "flow_analysis" [("symbol", .s symbol)] "Phân tích dòng tiền"]
    else []
  else if containsAny ql ["tài chính", "financial"] then
    if symbol ≠ "" then
      [fstep 1 "financial_statements" "summary" [("symbol", .s symbol)] "Báo cáo tài chính"]
    else []
  else if containsAny ql ["báo cáo", "report"] then
    if strContains ql "tuần" || strContains ql "weekly" then
      [fstep 1 "reporting" "weekly_report" [] "Báo cáo tuần"]
    else if strContains ql "danh mục" || strContains ql "portfolio" then
      [fstep 1 "reporting" "portfolio_report" [] "Báo cáo danh mục"]
    else if symbol ≠ "" then
      [fstep 1 "reporting" "stock_report" [("symbol", .s symbol)] "Báo cáo cổ phiếu"]
    else
      [fstep 1 "reporting" "daily_report" [] "Báo cáo ngày"]
  else if containsAny ql ["tính", "calculator", "lãi kép", "compound", "position size",
      "khối lượng lệnh", "thuế", "tax", "hoà vốn", "hòa vốn",
      "breakeven", "margin", "ký quỹ", "dca"] then
    if strContains ql "lãi kép" || strContains ql "compound" then
      [fstep 1 "calculators" "compound_interest" [] "Tính lãi kép"]
    else if strContains ql "position" || strContains ql "khối lượng lệnh"
        || strContains ql "vào lệnh" then
      [fstep 1 "calculators" "position_sizing" [] "Tính khối lượng vào lệnh"]
    else if strContains ql "thuế" || strContains ql "tax" || strContains ql "phí" then
      [fstep 1 "calculators" "tax" [] "Tính thuế & phí"]
    else if strContains ql "hoà vốn" || strContains ql "hòa vốn"
        || strContains ql "breakeven" then
      [fstep 1 "calculators" "breakeven" [] "Tính giá hoà vốn"]
    else if strContains ql "margin" || strContains ql "ký quỹ" then
      [fstep 1 "calculators" "margin" [] "Tính margin"]
    else if strContains ql "dca" then
      [fstep 1 "calculators" "dca" [] "Tính DCA"]
    else
      [fstep 1 "calculators" "compound_interest" [] "Máy tính tài chính"]
  else if containsAny ql ["thuật ngữ", "giải thích", "nghĩa là gì", "là gì",
      "hướng dẫn", "tutorial", "học", "kiến thức",
      "case study", "quiz", "kiểm tra", "education",
      "người mới", "newbie", "beginner"] then
    if containsAny ql ["quiz", "kiểm tra", "trắc nghiệm"] then
      let topic :=
        if strContains ql "cơ bản" || strContains ql "fundamental" then "fundamental"
        else if strContains ql "kỹ thuật" || strContains ql "technical" then "technical"
        else if strContains ql "giao dịch" || strContains ql "trading" then "trading"
        else "all"
      [fstep 1 "education" "quiz" [("topic", .s topic)] "Quiz kiến thức"]
    else if containsAny ql ["hướng dẫn", "tutorial", "học", "người mới", "newbie",
        "beginner"] then
      let topic :=
        if strContains ql "cơ bản" || strContains ql "fundamental" then "fundamental_analysis"
        else if strContains ql "kỹ thuật" || strContains ql "technical" then "technical_analysis"
        else if strContains ql "rủi ro" || strContains ql "risk" then "risk_management"
        else if strContains ql "giá trị" || strContains ql "value" then "value_investing"
        else if strContains ql "swing" then "swing_trading"
        else if strContains ql "dca" then "dca"
        else if strContains ql "bctc" || strContains ql "báo cáo tài chính" then
          "reading_financial_statements"
        else "beginner"
      [fstep 1 "education" "tutorial" [("topic", .s topic)] "Hướng dẫn"]
    else if strContains ql "case study" then
      [fstep 1 "education" "case_study" (symParams symbol) "Case study"]
    else if containsAny ql ["danh sách", "list", "liệt kê"] then
      [fstep 1 "education" "list_terms" [] "Liệt kê thuật ngữ"]
    else
      [fstep 1 "education" "define" [("term", .s (defineTerm query))] "Giải thích thuật ngữ"]
  else if containsAny ql ["danh mục", "portfolio", "watchlist", "theo dõi",
      "xếp hạng", "leaderboard", "top danh mục", "cộng đồng"] then
    if containsAny ql ["tạo", "create", "mở"] then
      [fstep 1 "social" "create_portfolio" [] "Tạo danh mục"]
    else if containsAny ql ["xếp hạng", "leaderboard", "ranking"] then
      [fstep 1 "social" "leaderboard" [] "Bảng xếp hạng"]
    else if containsAny ql ["top", "hiệu quả", "tốt nhất"] then
      [fstep 1 "social" "top_portfolios" [] "Top danh mục"]
    else if containsAny ql ["watchlist", "theo dõi"] then
      if containsAny ql ["thêm", "add"] then
        [fstep 1 "social" "add_watchlist" (symParams symbol) "Thêm watchlist"]
      else if containsAny ql ["xoá", "xóa", "remove", "bỏ"] then
        [fstep 1 "social" "remove_watchlist" (symParams symbol) "Xoá watchlist"]
      else
        [fstep 1 "social" "watchlist" [] "Xem watchlist"]
    else if containsAny ql ["xem", "list", "của tôi", "my"] then
      [fstep 1 "social" "my_portfolios" [] "Danh mục của tôi"]
    else
      [fstep 1 "social" "top_portfolios" [] "Top danh mục"]
  else if containsAny ql ["cảnh báo", "alert", "thông báo"] then
    if strContains ql "xem" || strContains ql "list" || strContains ql "danh sách" then
      [fstep 1 "alerts" "list" [] "Liệt kê cảnh báo"]
    else if strContains ql "kiểm tra" || strContains ql "check" then
      [fstep 1 "alerts" "check" [] "Kiểm tra cảnh báo"]
    else if strContains ql "xóa" || strContains ql "delete" then
      [fstep 1 "alerts" "list" [] "Liệt kê trước khi xóa"]
    else if strContains ql "lịch sử" || strContains ql "history" then
      [fstep 1 "alerts" "history" [] "Lịch sử cảnh báo"]
    else
      [fstep 1 "alerts" "list" [] "Liệt kê cảnh báo"]
  else []

/-- Models `Planner._fallback_plan` (src lines 187-440): extract symbols, run the
keyword cascade, and fill in the two-step (with symbol) or
market-overview (without) default when no branch produced steps. -/
def fallback_plan (query : String) : Plan :=
  let query_lower := pyLower query
  let symbols := extractSymbols query
  let symbol := symbols.headD ""
  let steps0 := fallbackSteps query_lower query symbol
  let steps :=
    if steps0.isEmpty then
      if symbol ≠ "" then
        [fstep 1 "financial_ratios" "all" [("symbol", .s symbol)] "Chỉ số tài chính",
         fstep 2 "technical_indicators" "summary" [("symbol", .s symbol)] "Chỉ báo kỹ thuật"]
      else
        [fstep 1 "market_overview" "summary" [] "Tổng quan thị trường"]
    else steps0
  ⟨some "Fallback plan", some symbols, some steps⟩

/-- The outcome of `LLMWrapper.generate_json` (src/model/llm.py lines
150-175) as seen by `Planner.create_plan`: either the decoded JSON plan
structure, or the `{"raw_response": ..., "parse_error": True}` marker
dict returned on `json.JSONDecodeError`. -/
inductive LLMResp where
  | parsed (p : Plan)
  | parseError (raw : String)

/-- Models `Planner.create_plan` (src lines 154-185) after the LLM call: the
only validation is `if "parse_error" in plan`; on that marker the
fallback plan is substituted, otherwise the decoded plan is returned
unchanged. -/
def create_plan (resp : LLMResp) (query : String) : Plan :=
  match resp with
  | .parsed p => p
  | .parseError _ => fallback_plan query

end DexterVN

namespace DexterVN

/-! ## Executor (src/agent/orchestrator.py lines 447-527)

A tool invocation `await tool.run(action=action, **params)` either
returns a result dict, raises `TypeError`, or raises some other
exception.  `Tool.run` maps the keyword-argument list actually passed
and the number of earlier `run` invocations of the same step (0 for the
first attempt, 1 for the `except TypeError` retry) to that outcome. -/

/-- Outcome of one `tool.run(...)` call. -/
inductive RunOutcome where
  | ok (r : PVal)
  | typeErr (msg : String)
  | exn (msg : String)

/-- A registered tool: its `run` coroutine. -/
structure Tool where
  run : List (String × PVal) → Nat → RunOutcome

/-- A `ToolRegistry` as the Executor sees it: `registry.get_tool(name)`
is `self._tools.get(name)` (src/tools/registry.py line 35), a plain map
from names to tools. -/
def Registry : Type := String → Option Tool

/-- The Python message of `TypeError: run() got multiple values for
keyword argument 'action'`, raised when `params` itself contains an
`action` key, before `run` is ever entered. -/
def dupActionMsg : String := "run() got multiple values for keyword argument \x27action\x27"

/-- Build the keyword arguments of `tool.run(action=action, **params)`
(`actionFirst = true`) or of the retry `tool.run(**params, action=action)`
(`actionFirst = false`); `none` when the expansion raises `TypeError`
because `params` already binds `action`. -/
def kwargsFor (action : String) (params : List (String × PVal)) (actionFirst : Bool) :
    Option (List (String × PVal)) :=
  if params.any (fun kv => kv.fst == "action") then none
  else some (if actionFirst then ("action", PVal.s action) :: params
             else params ++ [("action", PVal.s action)])

/-- Builds the dict with a false success flag and the error string, the failure dict
`_execute_step` returns for a missing tool or a caught exception. -/
def failDict (msg : String) : PVal :=
  .dict [("success", .b false), ("error", .s msg)]

/-- What one `_execute_step` call produced: the returned dict and the
number of times `tool.run(...)` was evaluated (0, 1 or 2). -/
structure StepExec where
  result : PVal
  runCalls : Nat
deriving Repr

/-- Models `Executor._execute_step` (src lines 501-527): resolve the tool
(failure dict, no invocation, if absent); call
`tool.run(action=action, **params)`; on `TypeError` retry once as
`tool.run(**params, action=action)`; convert any exception of the first
retry-path call or any non-`TypeError` exception into a failure dict.
The function is total: no exception escapes it. -/
def execute_step (reg : Registry) (st : Step) : StepExec :=
  let tool_name := st.tool.getD ""
  let action := st.action.getD ""
  let params := st.params.getD []
  match reg tool_name with
  | none => ⟨failDict ("Tool \x27" ++ tool_name ++ "\x27 không tồn tại"), 0⟩
  | some t =>
    match kwargsFor action params true with
    | none =>
      -- both the call and the retry raise TypeError while binding
      -- arguments; run is never entered, the retry's error is returned
      ⟨failDict dupActionMsg, 0⟩
    | some kw1 =>
      match t.run kw1 0 with
      | .ok r => ⟨r, 1⟩
      | .exn m => ⟨failDict m, 1⟩
      | .typeErr _ =>
        match kwargsFor action params false with
        | none => ⟨failDict dupActionMsg, 1⟩
        | some kw2 =>
          match t.run kw2 1 with
          | .ok r => ⟨r, 2⟩
          | .exn m => ⟨failDict m, 2⟩
          | .typeErr m => ⟨failDict m, 2⟩

/-- One element of the list `Executor.execute_plan` returns: either the
single `{"error": ...}` dict of the empty-plan case, or the per-step
record `{"step", "tool", "action", "success", "data"}`.  Because
`_execute_step` is total (it catches every exception), the
`isinstance(result, Exception)` branch of src lines 482-489 is
unreachable for these inputs and `success` is always `True` with the
step's returned dict (failure dicts included) under `data`. -/
structure StepRecord where
  step : Option Int
  tool : Option String
  action : Option String
  success : Bool
  data : PVal

/-- Entries of the `execute_plan` result list. -/
inductive ExecEntry where
  | noSteps (error : String)
  | res (r : StepRecord)

/-- The record appended for one step (src lines 491-497). -/
def mkStepEntry (reg : Registry) (st : Step) : ExecEntry :=
  .res ⟨st.step, st.tool, st.action, true, (execute_step reg st).result⟩

/-- Models `groups.setdefault(pg, []).append(step)` over the whole step list
produces the keys in first-occurrence order; this models that accumulator. -/
def insertKey (ks : List Int) (g : Int) : List Int :=
  if g ∈ ks then ks else ks ++ [g]

/-- The keys of the `groups` dict, in insertion order. -/
def groupKeys (steps : List Step) : List Int :=
  steps.foldl (fun ks st => insertKey ks (groupD st)) []

/-- Insertion into a sorted list (ascending). -/
def insertSorted (x : Int) : List Int → List Int
  | [] => [x]
  | a :: t => if x ≤ a then x :: a :: t else a :: insertSorted x t

/-- Insertion sort: `sorted(...)` on a list of distinct ints returns its
unique ascending reordering, which this computes. -/
def sortInts (l : List Int) : List Int := l.foldr insertSorted []

/-- Models `sorted(groups.keys())` (src line 476). -/
def sortedGroupKeys (steps : List Step) : List Int := sortInts (groupKeys steps)

/-- Models `Executor.execute_plan` (src lines 453-499): the empty-plan error
dict, or, group by group in ascending key order, the records of that
group's steps in their original relative order (the `asyncio.gather`
results come back in task submission order). -/
def execute_plan (reg : Registry) (plan : Plan) : List ExecEntry :=
  let steps := stepsD plan
  if steps.isEmpty then [.noSteps "Không có bước nào trong kế hoạch"]
  else
    (sortedGroupKeys steps).flatMap
      (fun g => (steps.filter (fun st => groupD st == g)).map (mkStepEntry reg))

/-- The steps of a plan in execution order (ascending group key, original
order within a group); `execute_plan` maps `mkStepEntry` over this. -/
def orderedSteps (steps : List Step) : List Step :=
  (sortedGroupKeys steps).flatMap (fun g => steps.filter (fun st => groupD st == g))

end DexterVN

namespace DexterVN

/-! ## Synthesizer (src/agent/orchestrator.py lines 534-583) -/

/-- Lowercase hex digit, as Python's `json` module emits in `\uXXXX`. -/
def hexDigit (n : Nat) : Char :=
  if n < 10 then Char.ofNat (48 + n) else Char.ofNat (87 + n)

/-- JSON string escaping of one character as `json.dumps` with
`ensure_ascii=False` performs it: quote, backslash and control
characters are escaped, everything else is copied verbatim. -/
def escChar (c : Char) : List Char :=
  if c = '"' then ['\\', '"']
  else if c = '\\' then ['\\', '\\']
  else if c = '\n' then ['\\', 'n']
  else if c = '\t' then ['\\', 't']
  else if c = '\r' then ['\\', 'r']
  else if c.toNat = 8 then ['\\', 'b']
  else if c.toNat = 12 then ['\\', 'f']
  else if c.toNat < 32 then
    ['\\', 'u', '0', '0', hexDigit (c.toNat / 16), hexDigit (c.toNat % 16)]
  else [c]

/-- A JSON string literal as `json.dumps` renders it. -/
def jstr (s : String) : String := "\"" ++ String.mk (s.data.flatMap escChar) ++ "\""

/-- Models `json.dumps(v, ensure_ascii=False, default=str)` on the embedded
values (default separators: `", "` between items, `": "` after keys). -/
def jdumps : PVal → String
  | .s v => jstr v
  | .i n => toString n
  | .b true => "true"
  | .b false => "false"
  | .null => "null"
  | .arr vs =>
      "[" ++ String.intercalate ", " (vs.attach.map (fun v => jdumps v.val)) ++ "]"
  | .dict kvs =>
      "\x7b" ++
        String.intercalate ", "
          (kvs.attach.map (fun kv => jstr kv.val.fst ++ ": " ++ jdumps kv.val.snd)) ++
      "\x7d"
decreasing_by
  · have := List.sizeOf_lt_of_mem v.property
    simp only [PVal.arr.sizeOf_spec]
    omega
  · have h1 := List.sizeOf_lt_of_mem kv.property
    have h2 : sizeOf kv.val.snd < sizeOf kv.val := by
      obtain ⟨⟨a, b⟩, hm⟩ := kv
      simp only [Prod.mk.sizeOf_spec]
      omega
    simp only [PVal.dict.sizeOf_spec]
    omega

/-- One result dict as `Synthesizer._format_results` reads it: the
fields behind `r.get("tool", "unknown")`, `r.get("action", "")`,
`r.get("success")` (absent or `False` are both falsy), `r.get("data", {})`
and `r.get("error", "Unknown error")`. -/
structure FRec where
  tool : Option String
  action : Option String
  success : Bool
  data : PVal
  error : Option String

/-- The section `_format_results` renders for one result (src lines
567-581): header, then either the serialized data — truncated to 3000
characters with the `"... [truncated]"` marker when longer — or the
error line. -/
def formatSection (r : FRec) : String :=
  let tool := r.tool.getD "unknown"
  let action := r.action.getD ""
  let header := "### " ++ tool ++ " (" ++ action ++ ")"
  if r.success then
    let data_str := jdumps r.data
    let data_str := if data_str.length > 3000 then pyTake data_str 3000 ++ "... [truncated]"
                    else data_str
    header ++ "\n" ++ data_str
  else
    header ++ "\n❌ Error: " ++ r.error.getD "Unknown error"

/-- Models `Synthesizer._format_results` (src lines 564-583):
`"\n\n".join(sections)`. -/
def format_results (results : List FRec) : String :=
  String.intercalate "\n\n" (results.map formatSection)

end DexterVN

namespace DexterVN

/-! ## Orchestrator (src/agent/orchestrator.py lines 590-739) -/

/-- Models `AgentOrchestrator._build_tool_summary` (src lines 719-739).  The
`f"{elapsed:.1f}"` float rendering is passed in pre-formatted as
`elapsedStr` (floating point formatting is outside the embedding); the
claims below do not depend on its value. -/
def build_tool_summary (plan : Plan) (results : List ExecEntry) (elapsedStr : String) :
    String :=
  let resultLine := fun (e : ExecEntry) =>
    match e with
    | .noSteps _ => "  ❌ `?` → `?`"
    | .res r =>
      let icon := if r.success then "✅" else "❌"
      "  " ++ icon ++ " `" ++ r.tool.getD "?" ++ "` → `" ++ r.action.getD "?" ++ "`"
  let intent := plan.intent.getD ""
  let lines :=
    ["---", "📦 **Tools đã sử dụng:**"] ++ results.map resultLine ++
    (if intent ≠ "" then ["\n🎯 **Ý định:** " ++ intent] else []) ++
    ["⏱️ **Thời gian:** " ++ elapsedStr ++ "s", "---"]
  String.intercalate "\n" lines

/-- What the normal (non-greeting, non-error) path of
`AgentOrchestrator.chat` leaves behind. -/
structure ChatOut where
  response : String
  memory : Memory

/-- The normal path of `AgentOrchestrator.chat` (src lines 671-697)
after the three awaited stages: `plan`, `results` and the Synthesizer's
`answer` are the values those stages produced; the tool summary is
prepended to the answer, and both turns — the user query and the
*decorated* response — are recorded in memory.  Timestamps of the two
`add_turn` calls are passed in (`datetime.now()` at the call sites). -/
def chat_normal (mem : Memory) (query : String) (plan : Plan)
    (results : List ExecEntry) (answer : String) (elapsedStr uts ats : String) :
    ChatOut :=
  let response := build_tool_summary plan results elapsedStr ++ "\n\n" ++ answer
  let m1 := add_turn mem "user" query uts
  let m2 := add_turn m1 "assistant" response ats
  ⟨response, m2⟩

end DexterVN

namespace DexterVN

/-! ## Concrete fixtures used by the per-claim evaluations -/

/-- A registry with no tools registered (every lookup misses). -/
def regNone : Registry := fun _ => none

/-- A one-step plan whose tool name resolves to nothing. -/
def planC1 : Plan :=
  ⟨some "intent", some [], some [⟨some 1, some "nosuch", some "x", some [], none, some 1⟩]⟩

/-- The single record `execute_plan` produces for `planC1`. -/
def recC1 : StepRecord :=
  ⟨some 1, some "nosuch", some "x", true, failDict "Tool \x27nosuch\x27 không tồn tại"⟩

/-- A decoded LLM plan whose steps list is empty (no parse-error marker). -/
def planEmptySteps : Plan := ⟨some "So sánh", some ["FPT", "VNM"], some []⟩

/-- The comparison query of the C6 scenario. -/
def q6 : String := "So sánh FPT và VNM"

/-- A tool that, like a tool whose body hits a `TypeError` at runtime,
raises `TypeError` on every invocation. -/
def tTE : Tool := ⟨fun _ _ => .typeErr "unsupported operand type(s)"⟩

/-- A registry resolving every name to `tTE`. -/
def regTE : Registry := fun _ => some tTE

/-- A step routed to `tTE`. -/
def stC8 : Step := ⟨some 1, some "calculators", some "tax", some [], none, some 1⟩

/-- A tool that returns the keyword arguments it received, making the
Executor's argument passing observable. -/
def echoTool : Tool := ⟨fun kwargs _ => .ok (.dict kwargs)⟩

/-- A registry resolving every name to `echoTool`. -/
def echoReg : Registry := fun _ => some echoTool

/-- A step whose `symbol` param is a two-element collection. -/
def stC5 : Step :=
  ⟨some 1, some "financial_ratios", some "all",
   some [("symbol", .arr [.s "FPT", .s "VNM"])], none, some 1⟩

/-- First step of the C3 scenario: declared first, assigned group 2. -/
def stG2 : Step := ⟨some 1, some "tool_a", some "act", some [], none, some 2⟩

/-- Second step of the C3 scenario: declared second, assigned group 1. -/
def stG1 : Step := ⟨some 2, some "tool_b", some "act", some [], none, some 1⟩

/-- The two-group plan of the C3 scenario. -/
def planC3 : Plan := ⟨none, none, some [stG2, stG1]⟩

/-- A 3100-character string (a successful payload beyond the 3000 ceiling). -/
def bigStr : String := String.mk (List.replicate 3100 'a')

/-- A successful result whose serialized data exceeds the ceiling. -/
def rBig : FRec := ⟨some "financial_ratios", some "all", true, .s bigStr, none⟩

/-- A 3100-character error message. -/
def bigErr : String := String.mk (List.replicate 3100 'e')

/-- A failed result whose error description exceeds the ceiling. -/
def rErr : FRec := ⟨some "financial_ratios", some "all", false, .dict [], some bigErr⟩

/-- A small plan for the C7 evaluation. -/
def planC7 : Plan := ⟨some "Phân tích", none, none⟩

end DexterVN

namespace DexterVN

/-! ## Lemmas: insertion sort and group keys -/

theorem insertSorted_perm (x : Int) (l : List Int) : (insertSorted x l).Perm (x :: l) := by
  induction l with
  | nil => exact List.Perm.refl _
  | cons a t ih =>
    rw [insertSorted]
    by_cases h : x ≤ a
    · rw [if_pos h]
    · rw [if_neg h]
      exact (ih.cons a).trans (List.Perm.swap x a t)

theorem insertSorted_sorted (x : Int) (l : List Int)
    (h : l.Pairwise (· ≤ ·)) : (insertSorted x l).Pairwise (· ≤ ·) := by
  induction l with
  | nil => simp [insertSorted]
  | cons a t ih =>
    rw [List.pairwise_cons] at h
    obtain ⟨ha, ht⟩ := h
    by_cases hxa : x ≤ a
    · rw [insertSorted, if_pos hxa]
      refine List.pairwise_cons.mpr ⟨?_, List.pairwise_cons.mpr ⟨ha, ht⟩⟩
      intro b hb
      rcases List.mem_cons.mp hb with rfl | hb
      · exact hxa
      · exact le_trans hxa (ha b hb)
    · rw [insertSorted, if_neg hxa]
      refine List.pairwise_cons.mpr ⟨?_, ih ht⟩
      intro b hb
      rcases List.mem_cons.mp ((insertSorted_perm x t).mem_iff.mp hb) with rfl | hbt
      · exact le_of_not_le hxa
      · exact ha b hbt

theorem sortInts_perm (l : List Int) : (sortInts l).Perm l := by
  induction l with
  | nil => exact List.Perm.refl _
  | cons a t ih => exact (insertSorted_perm a (sortInts t)).trans (ih.cons a)

theorem sortInts_sorted (l : List Int) : (sortInts l).Pairwise (· ≤ ·) := by
  induction l with
  | nil => simp [sortInts]
  | cons a t ih => exact insertSorted_sorted a _ ih

theorem mem_insertKey (ks : List Int) (g0 g : Int) :
    g ∈ insertKey ks g0 ↔ g ∈ ks ∨ g = g0 := by
  rw [insertKey]
  by_cases h : g0 ∈ ks
  · rw [if_pos h]
    refine ⟨Or.inl, ?_⟩
    rintro (hg | rfl)
    · exact hg
    · exact h
  · rw [if_neg h]
    simp

theorem nodup_insertKey (ks : List Int) (g0 : Int) (h : ks.Nodup) :
    (insertKey ks g0).Nodup := by
  rw [insertKey]
  by_cases hg : g0 ∈ ks
  · rwa [if_pos hg]
  · rw [if_neg hg]
    simp [List.nodup_append, h, hg]

theorem mem_foldl_insertKey (steps : List Step) (ks : List Int) (g : Int) :
    g ∈ steps.foldl (fun acc st => insertKey acc (groupD st)) ks ↔
      g ∈ ks ∨ g ∈ steps.map groupD := by
  induction steps generalizing ks with
  | nil => simp
  | cons a t ih =>
    rw [List.foldl_cons, ih, mem_insertKey]
    simp only [List.map_cons, List.mem_cons]
    tauto

theorem nodup_foldl_insertKey (steps : List Step) (ks : List Int) (h : ks.Nodup) :
    (steps.foldl (fun acc st => insertKey acc (groupD st)) ks).Nodup := by
  induction steps generalizing ks with
  | nil => exact h
  | cons a t ih => exact ih _ (nodup_insertKey _ _ h)

theorem mem_sortedGroupKeys (steps : List Step) (g : Int) :
    g ∈ sortedGroupKeys steps ↔ g ∈ steps.map groupD := by
  rw [sortedGroupKeys, (sortInts_perm _).mem_iff, groupKeys, mem_foldl_insertKey]
  simp

theorem nodup_sortedGroupKeys (steps : List Step) : (sortedGroupKeys steps).Nodup := by
  rw [sortedGroupKeys]
  exact (sortInts_perm _).nodup_iff.mpr (nodup_foldl_insertKey steps [] (List.nodup_nil))

theorem sorted_sortedGroupKeys (steps : List Step) :
    (sortedGroupKeys steps).Pairwise (· ≤ ·) := sortInts_sorted _

end DexterVN






namespace DexterVN

/-! ## Lemmas: the execution order of `execute_plan` -/

theorem flatMap_congr_mem {α β : Type} (l : List α) (f g : α → List β)
    (h : ∀ a ∈ l, f a = g a) : l.flatMap f = l.flatMap g := by
  induction l with
  | nil => rfl
  | cons a t ih =>
    rw [List.flatMap_cons, List.flatMap_cons, h a (List.mem_cons_self a t),
      ih (fun b hb => h b (List.mem_cons_of_mem a hb))]

theorem flatMap_ite_single {α : Type} (ks : List Int) (g : Int) (L : List α)
    (hnd : ks.Nodup) :
    (ks.flatMap (fun k => if k = g then L else [])) = if g ∈ ks then L else [] := by
  induction ks with
  | nil => simp
  | cons a t ih =>
    rw [List.nodup_cons] at hnd
    rw [List.flatMap_cons, ih hnd.2]
    by_cases hag : a = g
    · subst hag
      rw [if_pos rfl, if_neg (fun h => hnd.1 h), if_pos (List.mem_cons_self a t),
        List.append_nil]
    · rw [if_neg hag, List.nil_append]
      have hmemiff : (g ∈ a :: t) ↔ (g ∈ t) := by
        rw [List.mem_cons]
        constructor
        · rintro (rfl | h)
          · exact absurd rfl hag
          · exact h
        · exact Or.inr
      by_cases hgt : g ∈ t
      · rw [if_pos hgt, if_pos (hmemiff.mpr hgt)]
      · rw [if_neg hgt, if_neg (fun hm => hgt (hmemiff.mp hm))]

theorem orderedSteps_filter (steps : List Step) (g : Int) :
    (orderedSteps steps).filter (fun st => groupD st == g) =
      steps.filter (fun st => groupD st == g) := by
  rw [orderedSteps, List.filter_flatMap]
  have hinner : ∀ k ∈ sortedGroupKeys steps,
      (List.filter (fun st => groupD st == g) (steps.filter (fun st => groupD st == k))) =
        (if k = g then steps.filter (fun st => groupD st == g) else []) := by
    intro k _
    rw [List.filter_filter]
    by_cases hkg : k = g
    · subst hkg
      rw [if_pos rfl]
      exact List.filter_congr (fun st _ => by cases h : (groupD st == k) <;> simp [h])
    · rw [if_neg hkg, List.filter_eq_nil_iff]
      intro st _ hst
      rw [Bool.and_eq_true, beq_iff_eq, beq_iff_eq] at hst
      exact hkg (hst.2.symm.trans hst.1)
  rw [flatMap_congr_mem _ _ _ hinner,
    flatMap_ite_single _ g _ (nodup_sortedGroupKeys steps)]
  by_cases hg : g ∈ sortedGroupKeys steps
  · rw [if_pos hg]
  · rw [if_neg hg, Eq.comm, List.filter_eq_nil_iff]
    intro st hst hgst
    rw [beq_iff_eq] at hgst
    exact hg ((mem_sortedGroupKeys steps g).mpr
      (hgst ▸ List.mem_map_of_mem groupD hst))

theorem flatMap_filter_perm (l : List Step) (ks : List Int) (hnd : ks.Nodup)
    (hc : ∀ st ∈ l, groupD st ∈ ks) :
    (ks.flatMap (fun g => l.filter (fun st => groupD st == g))).Perm l := by
  induction ks generalizing l with
  | nil =>
    have hl : l = [] := by
      cases l with
      | nil => rfl
      | cons a t => exact absurd (hc a (List.mem_cons_self a t)) (List.not_mem_nil _)
    simp [hl]
  | cons a t ih =>
    rw [List.nodup_cons] at hnd
    rw [List.flatMap_cons]
    have htail :
        t.flatMap (fun g => l.filter (fun st => groupD st == g)) =
          t.flatMap (fun g =>
            (l.filter (fun st => !(groupD st == a))).filter (fun st => groupD st == g)) := by
      refine flatMap_congr_mem _ _ _ (fun g hg => ?_)
      rw [List.filter_filter, Eq.comm]
      refine List.filter_congr (fun st _ => ?_)
      cases h : (groupD st == a) with
      | true =>
        rw [beq_iff_eq] at h
        have hfalse : (groupD st == g) = false := by
          rw [beq_eq_false_iff_ne]
          intro hst
          have hga : a = g := h.symm.trans hst
          exact hnd.1 (by rw [hga]; exact hg)
        simp [hfalse]
      | false => simp [h]
    rw [htail]
    have hperm := ih (l.filter (fun st => !(groupD st == a))) hnd.2
      (fun st hst => by
        rw [List.mem_filter] at hst
        have hmem := hc st hst.1
        rcases List.mem_cons.mp hmem with heq | hmemt
        · exact absurd (beq_iff_eq.mpr heq) (by simpa using hst.2)
        · exact hmemt)
    exact ((hperm.append_left (l.filter (fun st => groupD st == a))).trans
      (by simpa using List.filter_append_perm (fun st => groupD st == a) l))

theorem orderedSteps_perm (steps : List Step) : (orderedSteps steps).Perm steps := by
  rw [orderedSteps]
  exact flatMap_filter_perm steps (sortedGroupKeys steps) (nodup_sortedGroupKeys steps)
    (fun st h => (mem_sortedGroupKeys steps (groupD st)).mpr (List.mem_map_of_mem groupD h))

theorem flatMap_filter_sorted (l : List Step) (ks : List Int)
    (hs : ks.Pairwise (· ≤ ·)) :
    (ks.flatMap (fun g => l.filter (fun st => groupD st == g))).Pairwise
      (fun a b => groupD a ≤ groupD b) := by
  induction ks with
  | nil => simp
  | cons a t ih =>
    rw [List.pairwise_cons] at hs
    rw [List.flatMap_cons, List.pairwise_append]
    refine ⟨?_, ih hs.2, ?_⟩
    · refine List.pairwise_of_forall_mem_list (fun x hx y hy => ?_)
      rw [List.mem_filter, beq_iff_eq] at hx hy
      rw [hx.2, hy.2]
    · intro x hx y hy
      rw [List.mem_filter, beq_iff_eq] at hx
      rw [List.mem_flatMap] at hy
      obtain ⟨g, hg, hyg⟩ := hy
      rw [List.mem_filter, beq_iff_eq] at hyg
      rw [hx.2, hyg.2]
      exact hs.1 g hg

theorem orderedSteps_sorted (steps : List Step) :
    (orderedSteps steps).Pairwise (fun a b => groupD a ≤ groupD b) := by
  rw [orderedSteps]
  exact flatMap_filter_sorted steps (sortedGroupKeys steps) (sorted_sortedGroupKeys steps)

theorem execute_plan_eq_map (reg : Registry) (plan : Plan) (h : stepsD plan ≠ []) :
    execute_plan reg plan = (orderedSteps (stepsD plan)).map (mkStepEntry reg) := by
  rw [execute_plan, orderedSteps, List.map_flatMap,
    if_neg (by simpa [List.isEmpty_iff] using h)]

theorem execute_plan_length (reg : Registry) (plan : Plan) (h : stepsD plan ≠ []) :
    (execute_plan reg plan).length = (stepsD plan).length := by
  rw [execute_plan_eq_map reg plan h, List.length_map, (orderedSteps_perm _).length_eq]

theorem mkStepEntry_mem (reg : Registry) (plan : Plan) (st : Step)
    (h : st ∈ stepsD plan) : mkStepEntry reg st ∈ execute_plan reg plan := by
  rw [execute_plan_eq_map reg plan (List.ne_nil_of_mem h)]
  exact List.mem_map_of_mem _ ((orderedSteps_perm (stepsD plan)).symm.mem_iff.mp h)

end DexterVN

namespace DexterVN

/-! ## Claim theorems -/

/-- C3: for every plan with a non-empty steps list, `execute_plan`
returns exactly the per-step records of the steps reordered by ascending
`parallel_group` key with the original declaration order kept inside each
group (the reordering is a permutation, sorted by group key, and
group-by-group identical to the declaration order); in particular the
two-step plan `[{step:1, group:2}, {step:2, group:1}]` yields the results
of step 2 then step 1, differing from declaration order. -/
theorem c3_execute_plan_order (reg : Registry) (plan : Plan)
    (h : stepsD plan ≠ []) :
    execute_plan reg plan = (orderedSteps (stepsD plan)).map (mkStepEntry reg) ∧
    (orderedSteps (stepsD plan)).Pairwise (fun a b => groupD a ≤ groupD b) ∧
    (∀ g : Int, (orderedSteps (stepsD plan)).filter (fun st => groupD st == g) =
      (stepsD plan).filter (fun st => groupD st == g)) ∧
    (orderedSteps (stepsD plan)).Perm (stepsD plan) ∧
    (∀ s1 s2 : Step, groupD s1 = 2 → groupD s2 = 1 →
      execute_plan reg ⟨none, none, some [s1, s2]⟩ =
        [mkStepEntry reg s2, mkStepEntry reg s1]) := by
  refine ⟨execute_plan_eq_map reg plan h, orderedSteps_sorted _,
    orderedSteps_filter _, orderedSteps_perm _, ?_⟩
  intro s1 s2 hg1 hg2
  simp [execute_plan, stepsD, sortedGroupKeys, groupKeys, insertKey, sortInts,
    insertSorted, hg1, hg2]

/-- Witness for C3 at a concrete two-group plan and the empty registry. -/
theorem c3_witness :
    stepsD planC3 ≠ [] ∧
    execute_plan regNone planC3 = [mkStepEntry regNone stG1, mkStepEntry regNone stG2] :=
  ⟨by simp [planC3, stepsD],
   (c3_execute_plan_order regNone planC3 (by simp [planC3, stepsD])).2.2.2.2
     stG2 stG1 rfl rfl⟩

/-- C1 (amended): a step whose tool does not resolve, or whose invocation
raises, never aborts siblings or the pipeline — the result list keeps one
record per step and this step's record is present — but the failure is
recorded *inside* the record's `data` payload (which carries
`success: False` and the error description), while the record's own
`success` field is `True`, not `False` as claimed. -/
theorem c1_failure_recovered_in_data (reg : Registry) (plan : Plan) (st : Step)
    (h : st ∈ stepsD plan) :
    (execute_plan reg plan).length = (stepsD plan).length ∧
    mkStepEntry reg st ∈ execute_plan reg plan ∧
    (reg (st.tool.getD "") = none →
      (execute_step reg st).result =
        failDict ("Tool \x27" ++ st.tool.getD "" ++ "\x27 không tồn tại")) ∧
    (∀ t kw m, reg (st.tool.getD "") = some t →
      kwargsFor (st.action.getD "") (st.params.getD []) true = some kw →
      t.run kw 0 = .exn m → (execute_step reg st).result = failDict m) ∧
    (∀ m, (execute_step reg st).result = failDict m →
      mkStepEntry reg st = .res ⟨st.step, st.tool, st.action, true, failDict m⟩ ∧
      pget (failDict m) "success" = some (.b false) ∧
      pget (failDict m) "error" = some (.s m)) := by
  refine ⟨execute_plan_length reg plan (List.ne_nil_of_mem h),
    mkStepEntry_mem reg plan st h, ?_, ?_, ?_⟩
  · intro hnone
    simp only [execute_step, hnone]
  · intro t kw m ht hkw hrun
    simp only [execute_step, ht, hkw, hrun]
  · intro m hm
    exact ⟨by rw [mkStepEntry, hm], rfl, rfl⟩

/-- Witness for C1 at a plan whose single step names an unregistered tool. -/
theorem c1_witness :
    (stepsD planC1).headD ⟨none, none, none, none, none, none⟩ ∈ stepsD planC1 ∧
    (execute_plan regNone planC1).length = (stepsD planC1).length ∧
    (execute_step regNone ((stepsD planC1).headD ⟨none, none, none, none, none, none⟩)).result =
      failDict "Tool \x27nosuch\x27 không tồn tại" := by
  have hmem : (stepsD planC1).headD ⟨none, none, none, none, none, none⟩ ∈ stepsD planC1 := by
    simp [planC1, stepsD]
  have h := c1_failure_recovered_in_data regNone planC1 _ hmem
  exact ⟨hmem, h.1, h.2.2.1 rfl⟩

/-- C1 counterexample: on the one-step plan with an unknown tool the
produced record has `success = true` (the claimed `success = false` record
does not occur); the error text only appears inside `data`. -/
theorem c1_counterexample_success_true :
    execute_plan regNone planC1 = [.res recC1] ∧
    recC1.success = true ∧
    recC1.success ≠ false ∧
    pget recC1.data "success" = some (.b false) ∧
    pget recC1.data "error" = some (.s "Tool \x27nosuch\x27 không tồn tại") :=
  ⟨rfl, rfl, by simp [recC1], rfl, rfl⟩

/-- C8 (amended): the Executor evaluates the resolved tool's `run` at
most *twice*, not at most once — the second evaluation happens exactly
when the first raises `TypeError` (the `except TypeError` retry of
`_execute_step`); no failure is escalated to an exception (the embedding
is total). -/
theorem c8_run_called_at_most_twice (reg : Registry) (st : Step) :
    (execute_step reg st).runCalls ≤ 2 ∧
    ((execute_step reg st).runCalls = 2 ↔
      ∃ t kw m, reg (st.tool.getD "") = some t ∧
        kwargsFor (st.action.getD "") (st.params.getD []) true = some kw ∧
        t.run kw 0 = .typeErr m) := by
  cases ht : reg (st.tool.getD "") with
  | none =>
    have hred : execute_step reg st =
        ⟨failDict ("Tool \x27" ++ st.tool.getD "" ++ "\x27 không tồn tại"), 0⟩ := by
      simp only [execute_step, ht]
    rw [hred]
    refine ⟨Nat.zero_le 2, ⟨?_, ?_⟩⟩
    · intro hc
      simp at hc
    · rintro ⟨t, kw, m, ht2, -, -⟩
      exact Option.noConfusion ht2
  | some t =>
    cases hkw : kwargsFor (st.action.getD "") (st.params.getD []) true with
    | none =>
      have hred : execute_step reg st = ⟨failDict dupActionMsg, 0⟩ := by
        simp only [execute_step, ht, hkw]
      rw [hred]
      refine ⟨Nat.zero_le 2, ⟨?_, ?_⟩⟩
      · intro hc
        simp at hc
      · rintro ⟨t2, kw2, m, -, hkw2, -⟩
        exact Option.noConfusion hkw2
    | some kw1 =>
      cases hrun : t.run kw1 0 with
      | ok r =>
        have hred : execute_step reg st = ⟨r, 1⟩ := by
          simp only [execute_step, ht, hkw, hrun]
        rw [hred]
        refine ⟨Nat.le_succ 1, ⟨?_, ?_⟩⟩
        · intro hc
          simp at hc
        · rintro ⟨t2, kw2, m, ht2, hkw2, hrun2⟩
          obtain rfl : t = t2 := Option.some.inj ht2
          obtain rfl : kw1 = kw2 := Option.some.inj hkw2
          rw [hrun] at hrun2
          exact RunOutcome.noConfusion hrun2
      | exn m0 =>
        have hred : execute_step reg st = ⟨failDict m0, 1⟩ := by
          simp only [execute_step, ht, hkw, hrun]
        rw [hred]
        refine ⟨Nat.le_succ 1, ⟨?_, ?_⟩⟩
        · intro hc
          simp at hc
        · rintro ⟨t2, kw2, m, ht2, hkw2, hrun2⟩
          obtain rfl : t = t2 := Option.some.inj ht2
          obtain rfl : kw1 = kw2 := Option.some.inj hkw2
          rw [hrun] at hrun2
          exact RunOutcome.noConfusion hrun2
      | typeErr m0 =>
        have hkwf : kwargsFor (st.action.getD "") (st.params.getD []) false =
            some ((st.params.getD []) ++ [("action", PVal.s (st.action.getD ""))]) := by
          cases hany : (st.params.getD []).any (fun kv => kv.fst == "action") with
          | true =>
            exfalso
            rw [kwargsFor, if_pos hany] at hkw
            exact Option.noConfusion hkw
          | false =>
            rw [kwargsFor, hany]
            rfl
        cases hrun2 : t.run ((st.params.getD []) ++ [("action", PVal.s (st.action.getD ""))]) 1 with
        | ok r =>
          have hred : execute_step reg st = ⟨r, 2⟩ := by
            simp only [execute_step, ht, hkw, hrun, hkwf, hrun2]
          rw [hred]
          exact ⟨le_refl 2, ⟨fun _ => ⟨t, kw1, m0, rfl, rfl, hrun⟩, fun _ => rfl⟩⟩
        | exn m2 =>
          have hred : execute_step reg st = ⟨failDict m2, 2⟩ := by
            simp only [execute_step, ht, hkw, hrun, hkwf, hrun2]
          rw [hred]
          exact ⟨le_refl 2, ⟨fun _ => ⟨t, kw1, m0, rfl, rfl, hrun⟩, fun _ => rfl⟩⟩
        | typeErr m2 =>
          have hred : execute_step reg st = ⟨failDict m2, 2⟩ := by
            simp only [execute_step, ht, hkw, hrun, hkwf, hrun2]
          rw [hred]
          exact ⟨le_refl 2, ⟨fun _ => ⟨t, kw1, m0, rfl, rfl, hrun⟩, fun _ => rfl⟩⟩

/-- C8 counterexample: a tool whose invocation raises `TypeError` has its
`run` evaluated twice by the Executor (the automatic retry), refuting
"at most once / never retried". -/
theorem c8_counterexample_two_invocations :
    (execute_step regTE stC8).runCalls = 2 ∧
    ¬ ((execute_step regTE stC8).runCalls ≤ 1) := by
  refine ⟨rfl, ?_⟩
  rw [show (execute_step regTE stC8).runCalls = 2 from rfl]
  omega

end DexterVN

namespace DexterVN

/-- C5 (amended): the Executor performs no coercion on collection-valued
`symbol` params — `_execute_step` forwards `params` to `tool.run`
verbatim (prefixed by the `action` keyword), so a tool invoked through a
step whose `symbol` is a multi-element collection receives that whole
collection, not its first element. -/
theorem c5_params_passed_unchanged (st : Step)
    (ha : (st.params.getD []).any (fun kv => kv.fst == "action") = false) :
    kwargsFor (st.action.getD "") (st.params.getD []) true =
      some (("action", PVal.s (st.action.getD "")) :: st.params.getD []) ∧
    (execute_step echoReg st).result =
      .dict (("action", PVal.s (st.action.getD "")) :: st.params.getD []) ∧
    (∀ v : PVal, ("symbol", v) ∈ st.params.getD [] →
      ("symbol", v) ∈ ("action", PVal.s (st.action.getD "")) :: st.params.getD []) := by
  have hkw : kwargsFor (st.action.getD "") (st.params.getD []) true =
      some (("action", PVal.s (st.action.getD "")) :: st.params.getD []) := by
    rw [kwargsFor, ha]
    rfl
  refine ⟨hkw, ?_, ?_⟩
  · simp only [execute_step, echoReg, hkw, echoTool]
  · intro v hv
    exact List.mem_cons_of_mem _ hv

/-- Witness for C5 at a step whose `symbol` param is the two-element
collection `["FPT", "VNM"]`. -/
theorem c5_witness :
    ((stC5.params.getD []).any (fun kv => kv.fst == "action") = false) ∧
    (execute_step echoReg stC5).result =
      .dict [("action", .s "all"), ("symbol", .arr [.s "FPT", .s "VNM"])] :=
  ⟨rfl, (c5_params_passed_unchanged stC5 rfl).2.1⟩

/-- C5 counterexample: the tool behind the step with
`symbol = ["FPT", "VNM"]` receives the full two-element collection —
the kwargs entry under `symbol` is the collection, not its first element
`"FPT"` — refuting the claimed coercion. -/
theorem c5_counterexample_no_coercion :
    (execute_step echoReg stC5).result =
      .dict [("action", .s "all"), ("symbol", .arr [.s "FPT", .s "VNM"])] ∧
    pget (execute_step echoReg stC5).result "symbol" =
      some (.arr [.s "FPT", .s "VNM"]) ∧
    some (PVal.arr [.s "FPT", .s "VNM"]) ≠ some (PVal.s "FPT") := by
  refine ⟨rfl, rfl, ?_⟩
  intro h
  exact PVal.noConfusion (Option.some.inj h)

/-- C2 (amended): `create_plan` substitutes the deterministic fallback
only when `generate_json` returned the `parse_error` marker — the
fallback plan always has a non-empty steps list — but a response that
decodes successfully is returned unchanged even when its steps list is
empty or missing, so the returned plan's steps list is not always
non-empty. -/
theorem c2_fallback_only_on_parse_error :
    (∀ q : String, stepsD (fallback_plan q) ≠ []) ∧
    (∀ raw q : String, create_plan (.parseError raw) q = fallback_plan q) ∧
    (∀ p : Plan, ∀ q : String, create_plan (.parsed p) q = p) := by
  refine ⟨?_, fun _ _ => rfl, fun _ _ => rfl⟩
  intro q
  rw [fallback_plan]
  simp only [stepsD]
  by_cases h0 : (fallbackSteps (pyLower q) q ((extractSymbols q).headD "")).isEmpty
  · rw [if_pos h0]
    by_cases hs : (extractSymbols q).headD "" ≠ ""
    · rw [if_pos hs]
      simp
    · rw [if_neg hs]
      simp
  · rw [if_neg h0]
    rw [List.isEmpty_iff] at h0
    simpa using h0

/-- C2 counterexample: a successfully decoded response with an empty
steps list is returned as the plan, with its empty steps list intact. -/
theorem c2_counterexample_empty_steps_returned :
    create_plan (.parsed planEmptySteps) "So sánh FPT và VNM" = planEmptySteps ∧
    stepsD (create_plan (.parsed planEmptySteps) "So sánh FPT và VNM") = [] :=
  ⟨rfl, rfl⟩

/-- C6 counterexample: on the comparison query the fallback planner
extracts both entities FPT and VNM, but the plan it produces gives every
step the first entity FPT — VNM appears in no step — refuting "one step
per extracted entity". -/
theorem c6_counterexample_no_step_for_vnm :
    extractSymbols q6 = ["FPT", "VNM"] ∧
    stepsD (fallback_plan q6) =
      [fstep 1 "financial_ratios" "all" [("symbol", .s "FPT")] "Chỉ số tài chính",
       fstep 2 "technical_indicators" "summary" [("symbol", .s "FPT")] "Chỉ báo kỹ thuật"] ∧
    (∀ st ∈ stepsD (fallback_plan q6), st.params = some [("symbol", PVal.s "FPT")]) := by
  refine ⟨rfl, rfl, ?_⟩
  intro st hst
  have h2 : stepsD (fallback_plan q6) =
      [fstep 1 "financial_ratios" "all" [("symbol", .s "FPT")] "Chỉ số tài chính",
       fstep 2 "technical_indicators" "summary" [("symbol", .s "FPT")] "Chỉ báo kỹ thuật"] := rfl
  rw [h2, List.mem_cons, List.mem_cons] at hst
  rcases hst with rfl | rfl | hst
  · rfl
  · rfl
  · exact absurd hst (List.not_mem_nil st)

/-- C6 (amended): on the comparison query the fallback planner yields at
least two steps and never a step carrying a multi-entity parameter, but
both steps are parameterized with the single first entity FPT. -/
theorem c6_two_steps_first_entity_only :
    2 ≤ (stepsD (fallback_plan q6)).length ∧
    (∀ st ∈ stepsD (fallback_plan q6),
      st.params = some [("symbol", PVal.s "FPT")]) ∧
    (∀ st ∈ stepsD (fallback_plan q6), ∀ vs : List PVal,
      st.params ≠ some [("symbol", PVal.arr vs)]) := by
  have h2 : stepsD (fallback_plan q6) =
      [fstep 1 "financial_ratios" "all" [("symbol", .s "FPT")] "Chỉ số tài chính",
       fstep 2 "technical_indicators" "summary" [("symbol", .s "FPT")] "Chỉ báo kỹ thuật"] := rfl
  refine ⟨by rw [h2]; decide, ?_, ?_⟩
  · intro st hst
    rw [h2, List.mem_cons, List.mem_cons] at hst
    rcases hst with rfl | rfl | hst
    · rfl
    · rfl
    · exact absurd hst (List.not_mem_nil st)
  · intro st hst vs hbad
    rw [h2, List.mem_cons, List.mem_cons] at hst
    rcases hst with rfl | rfl | hst
    · simp [fstep] at hbad
    · simp [fstep] at hbad
    · exact absurd hst (List.not_mem_nil st)

end DexterVN

namespace DexterVN

theorem getLast?_drop_of_lt {α : Type} (l : List α) (n : Nat) (h : n < l.length) :
    (l.drop n).getLast? = l.getLast? := by
  rw [List.getLast?_drop, if_neg (by omega)]

theorem getLast?_add_turn (m : Memory) (role content timestamp : String) :
    (add_turn m role content timestamp).history.getLast? =
      some ⟨role, content, timestamp⟩ := by
  rw [add_turn]
  simp only
  by_cases h : (m.history ++ [Turn.mk role content timestamp]).length > m.max_turns * 2
  · rw [if_pos h, pySliceLast]
    by_cases hk : m.max_turns * 2 = 0
    · rw [if_pos hk]
      exact List.getLast?_concat _
    · rw [if_neg hk,
        getLast?_drop_of_lt _ _ (by rw [List.length_append, List.length_singleton]; omega)]
      exact List.getLast?_concat _
  · rw [if_neg h]
    exact List.getLast?_concat _

/-- C7 (amended): on the normal path of `chat`, the assistant turn
recorded in Conversation Memory is the *decorated* response — the
execution summary of `_build_tool_summary` prepended to the
Synthesizer's answer — not the undecorated answer text the claim
describes. -/
theorem c7_memory_stores_decorated_response (mem : Memory) (query : String)
    (plan : Plan) (results : List ExecEntry) (answer : String)
    (elapsedStr uts ats : String) :
    (chat_normal mem query plan results answer elapsedStr uts ats).response =
      build_tool_summary plan results elapsedStr ++ "\n\n" ++ answer ∧
    (chat_normal mem query plan results answer elapsedStr uts ats).memory =
      add_turn (add_turn mem "user" query uts) "assistant"
        (build_tool_summary plan results elapsedStr ++ "\n\n" ++ answer) ats ∧
    (chat_normal mem query plan results answer elapsedStr uts ats).memory.history.getLast? =
      some ⟨"assistant", build_tool_summary plan results elapsedStr ++ "\n\n" ++ answer, ats⟩ :=
  ⟨rfl, rfl, getLast?_add_turn _ _ _ _⟩

/-- C7 counterexample: on a concrete normal-path exchange the assistant
content recorded in memory is the decorated response, which differs from
the Synthesizer's answer. -/
theorem c7_counterexample_decoration_in_memory :
    ((chat_normal ⟨20, []⟩ "Phân tích VNM" planC7 [] "Câu trả lời." "0.5" "t1" "t2").memory.history.map
        (fun t => t.content)) =
      ["Phân tích VNM",
       (chat_normal ⟨20, []⟩ "Phân tích VNM" planC7 [] "Câu trả lời." "0.5" "t1" "t2").response] ∧
    (chat_normal ⟨20, []⟩ "Phân tích VNM" planC7 [] "Câu trả lời." "0.5" "t1" "t2").response ≠
      "Câu trả lời." := by
  refine ⟨rfl, ?_⟩
  intro h
  have h1 : (chat_normal ⟨20, []⟩ "Phân tích VNM" planC7 [] "Câu trả lời." "0.5" "t1"
      "t2").response.data.head? = some '-' := rfl
  have h2 : ("Câu trả lời." : String).data.head? = some 'C' := rfl
  rw [h] at h1
  exact absurd (Option.some.inj (h2.symm.trans h1)) (by decide)

/-- C9: the claim matches the code's own intent (the comment at the
slice site promises the "last N turns") but not its behavior:
`recentContext(0)` on a non-empty history renders the *entire* history,
because Python `history[-0:]` is the whole list — while on an empty
history, and after `clear()`, the empty string is returned as claimed. -/
theorem c9_get_context_zero_returns_history :
    get_context ⟨20, [⟨"user", "hi", "t0"⟩]⟩ 0 = "User: hi" ∧
    "User: hi" ≠ "" ∧
    (∀ mt n : Nat, get_context ⟨mt, []⟩ n = "") ∧
    (∀ m : Memory, ∀ n : Nat, get_context (clear m) n = "") := by
  refine ⟨by decide, by decide, ?_, ?_⟩
  · intro mt n
    rw [get_context]
    simp [pySliceLast]
  · intro m n
    rw [clear, get_context]
    simp [pySliceLast]

end DexterVN

namespace DexterVN

theorem escChar_lower_a : escChar 'a' = ['a'] := rfl

theorem flatMap_escChar_replicate (n : Nat) :
    (List.replicate n 'a').flatMap escChar = List.replicate n 'a' := by
  induction n with
  | zero => rfl
  | succ k ih =>
    rw [List.replicate_succ, List.flatMap_cons, escChar_lower_a, ih]
    rfl

theorem jdumps_rBig_length : (jdumps rBig.data).length = 3102 := by
  have h1 : rBig.data = .s bigStr := rfl
  rw [h1, jdumps, jstr,
    show bigStr.data = List.replicate 3100 'a' from rfl,
    flatMap_escChar_replicate 3100]
  have hq : ("\"" : String).length = 1 := rfl
  have hm : (String.mk (List.replicate 3100 'a')).length = 3100 := by
    rw [String.length_mk, List.length_replicate]
  rw [String.length_append, String.length_append, hq, hm]

/-- C10 (amended): each *successful* result whose serialized data
exceeds the 3000-character ceiling has its section rendered as the
header plus the data truncated to exactly 3000 characters plus the
`"... [truncated]"` marker — the bound applies per section, the sections
being joined afterwards — whereas a *failed* result's error text is not
subject to the ceiling (see the counterexample). -/
theorem c10_success_sections_truncated (results : List FRec) (r : FRec)
    (h : r ∈ results) (hs : r.success = true)
    (hl : 3000 < (jdumps r.data).length) :
    formatSection r =
      "### " ++ r.tool.getD "unknown" ++ " (" ++ r.action.getD "" ++ ")" ++ "\n" ++
        pyTake (jdumps r.data) 3000 ++ "... [truncated]" ∧
    (formatSection r).length =
      ("### " ++ r.tool.getD "unknown" ++ " (" ++ r.action.getD "" ++ ")").length + 3016 ∧
    formatSection r ∈ results.map formatSection ∧
    format_results results = String.intercalate "\n\n" (results.map formatSection) := by
  have htake : (pyTake (jdumps r.data) 3000).length = 3000 := by
    rw [pyTake, String.length_mk, List.length_take]
    have hd : (jdumps r.data).length = (jdumps r.data).data.length := rfl
    omega
  have hsec : formatSection r =
      "### " ++ r.tool.getD "unknown" ++ " (" ++ r.action.getD "" ++ ")" ++ "\n" ++
        pyTake (jdumps r.data) 3000 ++ "... [truncated]" := by
    simp [formatSection, hs, hl, String.append_assoc]
  refine ⟨hsec, ?_, List.mem_map_of_mem formatSection h, rfl⟩
  have hm : ("... [truncated]" : String).length = 15 := rfl
  have hn : ("\n" : String).length = 1 := rfl
  rw [hsec]
  simp only [String.length_append, htake, hm, hn]

/-- Witness for C10 at a successful result whose serialized data is 3102
characters long. -/
theorem c10_witness :
    rBig ∈ [rBig] ∧ rBig.success = true ∧ 3000 < (jdumps rBig.data).length ∧
    formatSection rBig =
      "### " ++ rBig.tool.getD "unknown" ++ " (" ++ rBig.action.getD "" ++ ")" ++ "\n" ++
        pyTake (jdumps rBig.data) 3000 ++ "... [truncated]" := by
  have hl : 3000 < (jdumps rBig.data).length := by
    rw [jdumps_rBig_length]
    omega
  exact ⟨List.mem_singleton.mpr rfl, rfl, hl,
    (c10_success_sections_truncated [rBig] rBig (List.mem_singleton.mpr rfl) rfl hl).1⟩

/-- C10 counterexample: a failed result whose error description is 3100
characters long is rendered in full — no truncation, no marker — so its
section exceeds the ceiling plus the marker length, refuting the claim
for `StepResult`s whose payload is an error description. -/
theorem c10_counterexample_error_untruncated :
    format_results [rErr] = "### financial_ratios (all)" ++ "\n❌ Error: " ++ bigErr ∧
    3000 + ("... [truncated]" : String).length < (format_results [rErr]).length := by
  have h1 : format_results [rErr] =
      "### financial_ratios (all)" ++ "\n❌ Error: " ++ bigErr := rfl
  refine ⟨h1, ?_⟩
  have h2 : bigErr.length = 3100 := by
    rw [bigErr, String.length_mk, List.length_replicate]
  have h3 : ("### financial_ratios (all)" : String).length = 26 := rfl
  have h4 : ("\n❌ Error: " : String).length = 10 := rfl
  have h5 : ("... [truncated]" : String).length = 15 := rfl
  rw [h1, String.length_append, String.length_append, h2, h3, h4, h5]
  omega

end DexterVN
